import Mathlib

/-!
Verification of the reglet-plugin-sdk trust-boundary components against a
shallow embedding of the Go source.

Embedding conventions:
* machine integers (uint32, uint64) are Nat with explicit bounds and `% 2^w`
  where Go performs a narrowing conversion;
* a Go function that can panic is modelled as returning an Option (none =
  panic);
* the WASM allocation-pinning table (a Go map from pointer to pinned slice)
  is an association list with overwrite-on-insert semantics; the
  nondeterministic fresh address chosen by the allocator is an explicit
  parameter;
* side effects (denial logging, DNS resolution) are made explicit as event
  traces or invocation flags returned alongside the result.
-/

namespace RegletSDK

/-! ## Memory-boundary protocol (internal/abi, wasip1 build) -/

/-- PackPtrLen packs a 32-bit pointer and length into a single uint64,
pointer in the high 32 bits, length in the low 32 bits.  The Go function
panics when ptr is 0 and length > 0; the panic is modelled as none. -/
def PackPtrLen (ptr length : Nat) : Option Nat :=
  if ptr = 0 ∧ 0 < length then none
  else some (ptr * 2 ^ 32 + length)

/-- UnpackPtrLen splits a packed uint64 back into the pointer (high 32 bits,
via the Go conversion uint32(packed >> 32)) and length (low 32 bits, via
uint32(packed)).  The Go function panics when the pointer half is 0 and the
length half is nonzero; the panic is modelled as none. -/
def UnpackPtrLen (packed : Nat) : Option (Nat × Nat) :=
  let ptr := packed / 2 ^ 32 % 2 ^ 32
  let length := packed % 2 ^ 32
  if ptr = 0 ∧ 0 < length then none
  else some (ptr, length)

/-- The allocation-pinning table of the memory manager: Go map from a uint32
pointer to the pinned byte slice. -/
abbrev MemTable := List (Nat × List Nat)

/-- Deletion of one key from the pinning table (Go delete on the map). -/
def eraseKey (st : MemTable) (p : Nat) : MemTable :=
  st.filter (fun e => e.1 != p)

/-- Insertion into the pinning table (Go map assignment, overwriting). -/
def insertKey (st : MemTable) (p : Nat) (v : List Nat) : MemTable :=
  (p, v) :: eraseKey st p

/-- allocate reserves size bytes, pins them in the table under the fresh
address chosen by the runtime, and returns that pointer; a zero size returns
pointer 0 without touching the table. -/
def allocate (st : MemTable) (fresh : Nat) (size : Nat) : MemTable × Nat :=
  if size = 0 then (st, 0)
  else (insertKey st fresh (List.replicate size 0), fresh)

/-- deallocate removes the pointer from the pinning table. -/
def deallocate (st : MemTable) (ptr : Nat) : MemTable :=
  eraseKey st ptr

/-- FreeAllTracked iterates over the tracked pointers, deleting each one from
the pinning table, exactly as the Go range-and-delete loop does. -/
def FreeAllTracked (st : MemTable) : MemTable :=
  st.foldl (fun acc e => eraseKey acc e.1) st

/-- PtrFromBytes allocates, copies the payload, and returns the packed
pointer/length; a zero-length payload returns the packed value 0 without
allocating.  The length is narrowed with uint32(len(data)). -/
def PtrFromBytes (st : MemTable) (fresh : Nat) (data : List Nat) : MemTable × Option Nat :=
  if data.length = 0 then (st, some 0)
  else
    let size := data.length % 2 ^ 32
    let out := allocate st fresh size
    (out.1, PackPtrLen out.2 size)

/-- BytesFromPtr unpacks the handle and copies the referenced bytes out of
linear memory (mem is the memory contents); a zero pointer or zero length
yields the nil slice, modelled as some []. -/
def BytesFromPtr (mem : Nat → Nat) (packed : Nat) : Option (List Nat) :=
  match UnpackPtrLen packed with
  | none => none
  | some (ptr, length) =>
    if ptr = 0 ∨ length = 0 then some []
    else some ((List.range length).map (fun i => mem (ptr + i)))

/-- The panic-recovery path of handleExportedCall: on a recovered panic it
first frees every tracked allocation and only then packs the error evidence
(PtrFromBytes on the marshalled error payload). -/
def handleExportedCallRecover (st : MemTable) (fresh : Nat) (errData : List Nat) :
    MemTable × Option Nat :=
  let cleared := FreeAllTracked st
  PtrFromBytes cleared fresh errData

/-! ### Lemmas about the pinning table -/

theorem eraseKey_subset (st : MemTable) (p : Nat) :
    ∀ e ∈ eraseKey st p, e ∈ st ∧ e.1 ≠ p := by
  intro e he
  unfold eraseKey at he
  rw [List.mem_filter] at he
  refine ⟨he.1, ?_⟩
  have := he.2
  simpa using this

theorem foldl_erase_all (l : MemTable) :
    ∀ acc : MemTable, (∀ e ∈ acc, ∃ e' ∈ l, e.1 = e'.1) →
      l.foldl (fun acc e => eraseKey acc e.1) acc = [] := by
  induction l with
  | nil =>
    intro acc h
    cases acc with
    | nil => rfl
    | cons a t =>
      exfalso
      obtain ⟨e', he', _⟩ := h a (by simp)
      exact (List.not_mem_nil e') he'
  | cons x t ih =>
    intro acc h
    simp only [List.foldl_cons]
    apply ih
    intro e he
    obtain ⟨hmem, hne⟩ := eraseKey_subset acc x.1 e he
    obtain ⟨e', he', hkey⟩ := h e hmem
    rcases List.mem_cons.mp he' with h1 | h2
    · exact absurd (hkey.trans (congrArg Prod.fst h1)) hne
    · exact ⟨e', h2, hkey⟩

theorem FreeAllTracked_empty (st : MemTable) : FreeAllTracked st = [] := by
  apply foldl_erase_all
  intro e he
  exact ⟨e, he, rfl⟩

/-- C2: packing a (pointer, length) pair of 32-bit values and unpacking the
result returns the original pair whenever packing succeeds; packing the pair
(0, length) with length > 0 panics, and unpacking a packed value whose
pointer half is 0 and length half is nonzero panics, so no valid handle is
produced in either case. -/
theorem packPtrLen_unpackPtrLen_inverse :
    ∀ ptr length : Nat, ptr < 2 ^ 32 → length < 2 ^ 32 →
      (∀ packed, PackPtrLen ptr length = some packed →
        UnpackPtrLen packed = some (ptr, length)) ∧
      (0 < length → PackPtrLen 0 length = none) ∧
      (∀ packed, packed / 2 ^ 32 % 2 ^ 32 = 0 → 0 < packed % 2 ^ 32 →
        UnpackPtrLen packed = none) := by
  intro ptr length hp hl
  refine ⟨?_, ?_, ?_⟩
  · intro packed hpack
    unfold PackPtrLen at hpack
    split at hpack
    · exact absurd hpack (by simp)
    · rename_i hcond
      have hval : ptr * 2 ^ 32 + length = packed := by
        simpa using hpack
      have h1 : packed / 2 ^ 32 % 2 ^ 32 = ptr := by omega
      have h2 : packed % 2 ^ 32 = length := by omega
      unfold UnpackPtrLen
      simp only [h1, h2]
      rw [if_neg hcond]
  · intro hlen
    unfold PackPtrLen
    rw [if_pos ⟨rfl, hlen⟩]
  · intro packed h0 hpos
    unfold UnpackPtrLen
    simp only
    rw [if_pos ⟨h0, hpos⟩]

/-- Witness for C2 at the concrete pair (7, 5) and the failing inputs
(0, 9) and the packed value 9. -/
theorem packPtrLen_unpackPtrLen_inverse_witness :
    UnpackPtrLen (7 * 2 ^ 32 + 5) = some (7, 5) ∧
    PackPtrLen 0 9 = none ∧
    UnpackPtrLen 9 = none :=
  ⟨(packPtrLen_unpackPtrLen_inverse 7 5 (by norm_num) (by norm_num)).1
      (7 * 2 ^ 32 + 5) (by norm_num [PackPtrLen]),
   (packPtrLen_unpackPtrLen_inverse 0 9 (by norm_num) (by norm_num)).2.1
      (by norm_num),
   (packPtrLen_unpackPtrLen_inverse 0 9 (by norm_num) (by norm_num)).2.2 9
      (by norm_num) (by norm_num)⟩

/-- C3 counterexample: the pair (pointer 1, length 0) violates the direction
length = 0 implies pointer = 0 of the claimed invariant, yet PackPtrLen packs
it without complaint and UnpackPtrLen accepts the packed value, so the
invariant is not enforced in that direction. -/
theorem packUnpack_invariant_counterexample :
    PackPtrLen 1 0 = some (2 ^ 32) ∧ UnpackPtrLen (2 ^ 32) = some (1, 0) := by
  constructor
  · norm_num [PackPtrLen]
  · norm_num [UnpackPtrLen]

/-- C3 amended: at both pack and unpack time only the direction
pointer = 0 implies length = 0 of the invariant is enforced: a pair with a
zero pointer and nonzero length is rejected (panic), while a pair with a
nonzero pointer and zero length is packed and unpacked normally. -/
theorem packUnpack_invariant_amended :
    ∀ ptr length : Nat, ptr < 2 ^ 32 → length < 2 ^ 32 →
      (PackPtrLen ptr length = none ↔ ptr = 0 ∧ 0 < length) ∧
      (∀ packed, packed < 2 ^ 64 →
        (UnpackPtrLen packed = none ↔ packed / 2 ^ 32 = 0 ∧ 0 < packed % 2 ^ 32)) := by
  intro ptr length hp hl
  constructor
  · unfold PackPtrLen
    constructor
    · intro h
      by_contra hc
      rw [if_neg hc] at h
      exact Option.some_ne_none _ h
    · intro h
      rw [if_pos h]
  · intro packed hpacked
    have hdiv : packed / 2 ^ 32 % 2 ^ 32 = packed / 2 ^ 32 := by omega
    unfold UnpackPtrLen
    simp only [hdiv]
    constructor
    · intro h
      by_contra hc
      rw [if_neg hc] at h
      exact Option.some_ne_none _ h
    · intro h
      rw [if_pos h]

/-- Witness for the amended C3 at the concrete rejected pair (0, 1) and the
concrete accepted packed value 2 ^ 32. -/
theorem packUnpack_invariant_amended_witness :
    PackPtrLen 0 1 = none ∧ UnpackPtrLen 1 = none :=
  ⟨(packUnpack_invariant_amended 0 1 (by norm_num) (by norm_num)).1.mpr
      ⟨rfl, by norm_num⟩,
   ((packUnpack_invariant_amended 0 1 (by norm_num) (by norm_num)).2 1
      (by norm_num)).mpr ⟨by norm_num, by norm_num⟩⟩

/-- C4: the panic-recovery path of handleExportedCall empties the pinning
table before packing the error result (the packing step starts from the
empty table), and FreeAllTracked is idempotent: from any table state it
leaves the table empty, and a second call is a no-op on the empty table. -/
theorem handleExportedCall_recover_frees_all :
    ∀ (st : MemTable) (fresh : Nat) (errData : List Nat),
      FreeAllTracked st = [] ∧
      FreeAllTracked (FreeAllTracked st) = FreeAllTracked st ∧
      handleExportedCallRecover st fresh errData = PtrFromBytes [] fresh errData := by
  intro st fresh errData
  refine ⟨FreeAllTracked_empty st, ?_, ?_⟩
  · rw [FreeAllTracked_empty st]
    exact FreeAllTracked_empty []
  · unfold handleExportedCallRecover
    rw [FreeAllTracked_empty]

/-- C10: a zero-length payload maps to the null boundary handle: PtrFromBytes
of the empty slice returns packed value 0 and leaves the pinning table
untouched, allocate of size 0 returns pointer 0 without tracking anything,
and BytesFromPtr of packed value 0 returns the nil slice instead of
panicking. -/
theorem emptyPayload_nullHandle :
    ∀ (st : MemTable) (fresh : Nat) (mem : Nat → Nat),
      PtrFromBytes st fresh [] = (st, some 0) ∧
      allocate st fresh 0 = (st, 0) ∧
      BytesFromPtr mem 0 = some [] := by
  intro st fresh mem
  exact ⟨rfl, rfl, rfl⟩

/-! ## Grant model (domain/entities) -/

/-- One network access rule: host patterns and port patterns. -/
structure NetworkRule where
  Hosts : List String
  Ports : List String
deriving DecidableEq

/-- Permitted network access: an ordered list of rules. -/
structure NetworkCapability where
  Rules : List NetworkRule
deriving DecidableEq

/-- One filesystem access rule: read patterns and write patterns. -/
structure FileSystemRule where
  Read : List String := []
  Write : List String := []
deriving DecidableEq

/-- Permitted filesystem access: an ordered list of rules. -/
structure FileSystemCapability where
  Rules : List FileSystemRule
deriving DecidableEq

/-- Permitted environment variables. -/
structure EnvironmentCapability where
  Variables : List String
deriving DecidableEq

/-- Permitted command execution: an explicit allowlist. -/
structure ExecCapability where
  Commands : List String
deriving DecidableEq

/-- One key-value access rule. -/
structure KeyValueRule where
  Keys : List String
  Operation : String
deriving DecidableEq

/-- Permitted key-value store access. -/
structure KeyValueCapability where
  Rules : List KeyValueRule
deriving DecidableEq

/-- GrantSet: the complete set of capabilities granted to one plugin; each
sub-capability is optional (a Go nil pointer is none). -/
structure GrantSet where
  Network : Option NetworkCapability := none
  FS : Option FileSystemCapability := none
  Env : Option EnvironmentCapability := none
  Exec : Option ExecCapability := none
  KV : Option KeyValueCapability := none
deriving DecidableEq

/-! ## Risk analyzer (domain/entities/risk.go) -/

/-- RiskLevel mirrors the Go iota constants RiskNone .. RiskCritical. -/
inductive RiskLevel where
  | riskNone
  | low
  | medium
  | high
  | critical
deriving DecidableEq

/-- The underlying integer of the Go iota constant, used for the order
comparisons in the source. -/
def RiskLevel.toNat : RiskLevel → Nat
  | .riskNone => 0
  | .low => 1
  | .medium => 2
  | .high => 3
  | .critical => 4

/-- One specific risky capability found by the analyzer. -/
structure RiskFactor where
  Level : RiskLevel
  Description : String
  Rule : String
deriving DecidableEq

/-- The risk assessment result. -/
structure RiskReport where
  Level : RiskLevel
  RiskFactors : List RiskFactor
deriving DecidableEq

/-- Go fmt of a []string with the %s or %v verb: the elements separated by
spaces inside square brackets. -/
def goFmtStrings (xs : List String) : String :=
  "[" ++ String.intercalate " " xs ++ "]"

/-- The addFactor closure of Analyze: appends the factor when its level is
above RiskNone and raises the report level to the maximum seen. -/
def addFactor (report : RiskReport) (level : RiskLevel) (desc rule : String) :
    RiskReport :=
  if RiskLevel.toNat level > RiskLevel.toNat RiskLevel.riskNone then
    { Level := if RiskLevel.toNat level > RiskLevel.toNat report.Level then level
               else report.Level,
      RiskFactors := report.RiskFactors ++ [⟨level, desc, rule⟩] }
  else report

/-- The body of the network loop in Analyze: a wildcard host pattern in the
rule yields a critical factor, any other rule a medium one. -/
def analyzeNetworkRule (report : RiskReport) (rule : NetworkRule) : RiskReport :=
  let ruleStr := "Network: " ++ goFmtStrings rule.Hosts ++ ":" ++ goFmtStrings rule.Ports
  let isWildcardHost := rule.Hosts.any (fun h => h == "*" || h == "0.0.0.0")
  if isWildcardHost then
    addFactor report .critical "Unrestricted network access" ruleStr
  else
    addFactor report .medium "Outbound network access" ruleStr

/-- The body of the filesystem loop in Analyze. -/
def analyzeFSRule (report : RiskReport) (rule : FileSystemRule) : RiskReport :=
  let report :=
    if rule.Write.length > 0 then
      addFactor report .high "Filesystem write access" ("FS Write: " ++ goFmtStrings rule.Write)
    else report
  if rule.Read.length > 0 then
    addFactor report .medium "Filesystem read access" ("FS Read: " ++ goFmtStrings rule.Read)
  else report

/-- Step 1 of Analyze: the network section. -/
def analyzeNetworkPhase (g : GrantSet) (report : RiskReport) : RiskReport :=
  match g.Network with
  | none => report
  | some nc => nc.Rules.foldl analyzeNetworkRule report

/-- Step 2 of Analyze: the filesystem section. -/
def analyzeFSPhase (g : GrantSet) (report : RiskReport) : RiskReport :=
  match g.FS with
  | none => report
  | some fc => fc.Rules.foldl analyzeFSRule report

/-- Step 3 of Analyze: the exec section. -/
def analyzeExecPhase (g : GrantSet) (report : RiskReport) : RiskReport :=
  match g.Exec with
  | none => report
  | some ec =>
    if ec.Commands.length > 0 then
      addFactor report .critical "Arbitrary command execution" ("Exec: " ++ goFmtStrings ec.Commands)
    else report

/-- Step 4 of Analyze: the environment section. -/
def analyzeEnvPhase (g : GrantSet) (report : RiskReport) : RiskReport :=
  match g.Env with
  | none => report
  | some env =>
    if env.Variables.length > 0 then
      addFactor report .low "Environment variable access" ("Env: " ++ goFmtStrings env.Variables)
    else report

/-- Analyze of the SimpleRiskAnalyzer: a nil grant set yields the empty
RiskNone report, otherwise the four sections are scanned in the fixed order
network, filesystem, exec, environment. -/
def Analyze (grants : Option GrantSet) : RiskReport :=
  match grants with
  | none => { Level := .riskNone, RiskFactors := [] }
  | some g =>
    analyzeEnvPhase g (analyzeExecPhase g (analyzeFSPhase g
      (analyzeNetworkPhase g { Level := .riskNone, RiskFactors := [] })))

/-- The single factor that the network loop of Analyze produces for one rule. -/
def netFactor (rule : NetworkRule) : RiskFactor :=
  let ruleStr := "Network: " ++ goFmtStrings rule.Hosts ++ ":" ++ goFmtStrings rule.Ports
  if rule.Hosts.any (fun h => h == "*" || h == "0.0.0.0") then
    ⟨.critical, "Unrestricted network access", ruleStr⟩
  else
    ⟨.medium, "Outbound network access", ruleStr⟩

/-! ### Lemmas about factor accumulation -/

theorem addFactor_low (report : RiskReport) (d r : String) :
    (addFactor report .low d r).RiskFactors = report.RiskFactors ++ [⟨.low, d, r⟩] := rfl

theorem addFactor_medium (report : RiskReport) (d r : String) :
    (addFactor report .medium d r).RiskFactors = report.RiskFactors ++ [⟨.medium, d, r⟩] := rfl

theorem addFactor_high (report : RiskReport) (d r : String) :
    (addFactor report .high d r).RiskFactors = report.RiskFactors ++ [⟨.high, d, r⟩] := rfl

theorem addFactor_critical (report : RiskReport) (d r : String) :
    (addFactor report .critical d r).RiskFactors = report.RiskFactors ++ [⟨.critical, d, r⟩] := rfl

theorem analyzeNetworkRule_riskFactors (report : RiskReport) (rule : NetworkRule) :
    (analyzeNetworkRule report rule).RiskFactors =
      report.RiskFactors ++ [netFactor rule] := by
  cases hb : rule.Hosts.any (fun h => h == "*" || h == "0.0.0.0") <;>
    simp [analyzeNetworkRule, netFactor, hb, addFactor_critical, addFactor_medium]

theorem networkFold_riskFactors (rules : List NetworkRule) :
    ∀ report : RiskReport,
      (rules.foldl analyzeNetworkRule report).RiskFactors =
        report.RiskFactors ++ rules.map netFactor := by
  induction rules with
  | nil => intro report; simp
  | cons x t ih =>
    intro report
    simp only [List.foldl_cons, List.map_cons]
    rw [ih, analyzeNetworkRule_riskFactors]
    simp

theorem analyzeFSRule_extends (report : RiskReport) (rule : FileSystemRule) :
    ∃ t, (analyzeFSRule report rule).RiskFactors = report.RiskFactors ++ t := by
  simp only [analyzeFSRule]
  by_cases hw : rule.Write.length > 0 <;> by_cases hr : rule.Read.length > 0
  · rw [if_pos hw, if_pos hr, addFactor_medium, addFactor_high]
    exact ⟨_, (List.append_assoc _ _ _)⟩
  · rw [if_pos hw, if_neg hr, addFactor_high]
    exact ⟨_, rfl⟩
  · rw [if_neg hw, if_pos hr, addFactor_medium]
    exact ⟨_, rfl⟩
  · rw [if_neg hw, if_neg hr]
    exact ⟨[], (List.append_nil _).symm⟩

theorem fsFold_extends (rules : List FileSystemRule) :
    ∀ report : RiskReport,
      ∃ t, (rules.foldl analyzeFSRule report).RiskFactors = report.RiskFactors ++ t := by
  induction rules with
  | nil => intro report; exact ⟨[], by simp⟩
  | cons x t ih =>
    intro report
    obtain ⟨t1, h1⟩ := analyzeFSRule_extends report x
    obtain ⟨t2, h2⟩ := ih (analyzeFSRule report x)
    exact ⟨t1 ++ t2, by simp only [List.foldl_cons]; rw [h2, h1]; simp⟩

theorem analyzeFSPhase_extends (g : GrantSet) (report : RiskReport) :
    ∃ t, (analyzeFSPhase g report).RiskFactors = report.RiskFactors ++ t := by
  cases hF : g.FS with
  | none => exact ⟨[], by simp [analyzeFSPhase, hF]⟩
  | some fc =>
    simp only [analyzeFSPhase, hF]
    exact fsFold_extends fc.Rules report

theorem analyzeExecPhase_extends (g : GrantSet) (report : RiskReport) :
    ∃ t, (analyzeExecPhase g report).RiskFactors = report.RiskFactors ++ t := by
  cases hE : g.Exec with
  | none => exact ⟨[], by simp [analyzeExecPhase, hE]⟩
  | some ec =>
    simp only [analyzeExecPhase, hE]
    by_cases h : ec.Commands.length > 0
    · rw [if_pos h]
      exact ⟨_, addFactor_critical _ _ _⟩
    · rw [if_neg h]
      exact ⟨[], by simp⟩

theorem analyzeEnvPhase_extends (g : GrantSet) (report : RiskReport) :
    ∃ t, (analyzeEnvPhase g report).RiskFactors = report.RiskFactors ++ t := by
  cases hE : g.Env with
  | none => exact ⟨[], by simp [analyzeEnvPhase, hE]⟩
  | some env =>
    simp only [analyzeEnvPhase, hE]
    by_cases h : env.Variables.length > 0
    · rw [if_pos h]
      exact ⟨_, addFactor_low _ _ _⟩
    · rw [if_neg h]
      exact ⟨[], by simp⟩

theorem analyze_network_factors_mem (g : GrantSet) (nc : NetworkCapability)
    (hg : g.Network = some nc) :
    ∀ rule ∈ nc.Rules, netFactor rule ∈ (Analyze (some g)).RiskFactors := by
  intro rule hrule
  unfold Analyze
  obtain ⟨t4, h4⟩ := analyzeEnvPhase_extends g
    (analyzeExecPhase g (analyzeFSPhase g
      (analyzeNetworkPhase g { Level := .riskNone, RiskFactors := [] })))
  obtain ⟨t3, h3⟩ := analyzeExecPhase_extends g
    (analyzeFSPhase g (analyzeNetworkPhase g { Level := .riskNone, RiskFactors := [] }))
  obtain ⟨t2, h2⟩ := analyzeFSPhase_extends g
    (analyzeNetworkPhase g { Level := .riskNone, RiskFactors := [] })
  rw [h4, h3, h2]
  have hnet : (analyzeNetworkPhase g { Level := .riskNone, RiskFactors := [] }).RiskFactors =
      nc.Rules.map netFactor := by
    simp only [analyzeNetworkPhase, hg]
    rw [networkFold_riskFactors]
    simp
  rw [hnet]
  have : netFactor rule ∈ nc.Rules.map netFactor := List.mem_map_of_mem netFactor hrule
  simp only [List.mem_append]
  exact Or.inl (Or.inl (Or.inl this))

/-- C6: in a grant set whose network capability is present, every network
rule with a host pattern "*" or "0.0.0.0" contributes a critical factor
described as unrestricted network access, every other network rule a medium
factor described as outbound network access; consequently Analyze of the
single rule Hosts ["*"], Ports ["443"] reports level critical, and of
Hosts ["example.com"] level medium. -/
theorem analyze_network_rules_risk :
    (∀ (g : GrantSet) (nc : NetworkCapability), g.Network = some nc →
      ∀ rule ∈ nc.Rules,
        netFactor rule ∈ (Analyze (some g)).RiskFactors ∧
        (rule.Hosts.any (fun h => h == "*" || h == "0.0.0.0") = true →
          (netFactor rule).Level = .critical ∧
          (netFactor rule).Description = "Unrestricted network access") ∧
        (rule.Hosts.any (fun h => h == "*" || h == "0.0.0.0") = false →
          (netFactor rule).Level = .medium ∧
          (netFactor rule).Description = "Outbound network access")) ∧
    (Analyze (some { Network := some ⟨[⟨["*"], ["443"]⟩]⟩ })).Level = .critical ∧
    (Analyze (some { Network := some ⟨[⟨["example.com"], ["443"]⟩]⟩ })).Level = .medium := by
  refine ⟨?_, rfl, rfl⟩
  intro g nc hg rule hrule
  refine ⟨analyze_network_factors_mem g nc hg rule hrule, ?_, ?_⟩
  · intro hb
    constructor <;> simp [netFactor, hb]
  · intro hb
    constructor <;> simp [netFactor, hb]

/-- Witness for C6: the wildcard rule of the first concrete example indeed
appears as a factor of the produced report. -/
theorem analyze_network_rules_risk_witness :
    netFactor ⟨["*"], ["443"]⟩ ∈
      (Analyze (some { Network := some ⟨[⟨["*"], ["443"]⟩]⟩ })).RiskFactors ∧
    (netFactor ⟨["*"], ["443"]⟩).Level = .critical :=
  have h := analyze_network_rules_risk.1 { Network := some ⟨[⟨["*"], ["443"]⟩]⟩ }
    ⟨[⟨["*"], ["443"]⟩]⟩ rfl ⟨["*"], ["443"]⟩ (by simp)
  ⟨h.1, (h.2.1 (by decide)).1⟩

/-- C7: Analyze is total, and a nil grant set as well as the empty grant set
with every sub-capability absent both yield level NONE with no factors. -/
theorem analyze_nil_and_empty_none :
    Analyze none = { Level := .riskNone, RiskFactors := [] } ∧
    Analyze (some {}) = { Level := .riskNone, RiskFactors := [] } :=
  ⟨rfl, rfl⟩

/-! ## Policy engine and capability checker (hostfuncs capability checker) -/

/-- A runtime request to access the network (host and port). -/
structure NetworkRequest where
  Host : String
  Port : Int
deriving DecidableEq

/-- Modelled from the spec: the implementation behind the ports.Policy
interface is not among this repository's sources (only the interface
declaration and its callers are).  Following the spec, the policy is a pure
decision function from request and grant set to a boolean; it is kept
abstract here. -/
structure Policy where
  evalNetwork : NetworkRequest → GrantSet → Bool

/-- Observable actions of the policy: a silent evaluation, a loud check, and
the denial report the loud check emits on a refusal. -/
inductive PolicyEvent where
  | evaluateCall (req : NetworkRequest)
  | checkCall (req : NetworkRequest)
  | denialReport (req : NetworkRequest)
deriving DecidableEq

/-- Modelled from the spec: EvaluateNetwork is the pure evaluation, with no
observable side effect beyond the call itself. -/
def Policy.EvaluateNetwork (pol : Policy) (req : NetworkRequest) (grants : GrantSet) :
    Bool × List PolicyEvent :=
  (pol.evalNetwork req grants, [PolicyEvent.evaluateCall req])

/-- Modelled from the spec: CheckNetwork returns the boolean identical to
EvaluateNetwork and on denial additionally performs the side-effecting
denial report. -/
def Policy.CheckNetwork (pol : Policy) (req : NetworkRequest) (grants : GrantSet) :
    Bool × List PolicyEvent :=
  let b := pol.evalNetwork req grants
  (b, PolicyEvent.checkCall req :: (if b then [] else [PolicyEvent.denialReport req]))

/-- The granted-capabilities table of the CapabilityChecker: a Go map from
plugin name to a possibly nil GrantSet pointer (the outer none is a missing
key, an inner none a nil pointer). -/
abbrev CapsTable := String → Option (Option GrantSet)

/-- CheckNetworkConnection from the hostfuncs capability checker: looks up
the plugin's grants, silently evaluates first, and only on denial invokes
the loud check for its denial-logging side effect before returning the
denial error. -/
def CapabilityChecker.CheckNetworkConnection (pol : Policy) (caps : CapsTable)
    (pluginName host : String) (port : Int) : Option String × List PolicyEvent :=
  match caps pluginName with
  | none => (some ("no capabilities granted to plugin " ++ pluginName), [])
  | some none => (some ("no capabilities granted to plugin " ++ pluginName), [])
  | some (some grants) =>
    let req : NetworkRequest := ⟨host, port⟩
    let out1 := Policy.EvaluateNetwork pol req grants
    if out1.1 then (none, out1.2)
    else
      let out2 := Policy.CheckNetwork pol req grants
      (some ("network capability denied: " ++ host ++ ":" ++ toString port),
        out1.2 ++ out2.2)

/-- CheckNetwork from the hostfuncs capability checker: looks up the
plugin's grants and performs the loud policy check, returning nil on allow
and an error on lookup failure or denial. -/
def CapabilityChecker.CheckNetwork (pol : Policy) (caps : CapsTable)
    (pluginName : String) (req : NetworkRequest) : Option String × List PolicyEvent :=
  match caps pluginName with
  | none => (some ("no capabilities granted to plugin " ++ pluginName), [])
  | some none => (some ("no capabilities granted to plugin " ++ pluginName), [])
  | some (some grants) =>
    let out := Policy.CheckNetwork pol req grants
    if out.1 then (none, out.2)
    else (some ("network capability denied: " ++ req.Host ++ ":" ++ toString req.Port),
      out.2)

/-- Containment of one character sequence inside another. -/
def charsSegContains : List Char → List Char → Bool
  | [], needle => needle.isEmpty
  | c :: t, needle => needle.isPrefixOf (c :: t) || charsSegContains t needle

/-- Substring containment on strings. -/
def strContainsSub (hay needle : String) : Bool :=
  charsSegContains hay.toList needle.toList

/-- C1: for a registered, non-nil grant set, CheckNetworkConnection returns
nil exactly when the pure EvaluateNetwork returns true; the loud CheckNetwork
is invoked only when EvaluateNetwork has returned false, and then strictly
after the evaluation; and the loud check returns the boolean identical to
the pure evaluation. -/
theorem checkNetworkConnection_matches_evaluate :
    ∀ (pol : Policy) (caps : CapsTable) (plugin host : String) (port : Int)
      (g : GrantSet), caps plugin = some (some g) →
      ((CapabilityChecker.CheckNetworkConnection pol caps plugin host port).1 = none ↔
        pol.evalNetwork ⟨host, port⟩ g = true) ∧
      (PolicyEvent.checkCall ⟨host, port⟩ ∈
          (CapabilityChecker.CheckNetworkConnection pol caps plugin host port).2 ↔
        pol.evalNetwork ⟨host, port⟩ g = false) ∧
      (pol.evalNetwork ⟨host, port⟩ g = false →
        (CapabilityChecker.CheckNetworkConnection pol caps plugin host port).2 =
          [PolicyEvent.evaluateCall ⟨host, port⟩, PolicyEvent.checkCall ⟨host, port⟩,
            PolicyEvent.denialReport ⟨host, port⟩]) ∧
      (∀ (req : NetworkRequest) (g' : GrantSet),
        (Policy.CheckNetwork pol req g').1 = (Policy.EvaluateNetwork pol req g').1) := by
  intro pol caps plugin host port g hcaps
  simp only [CapabilityChecker.CheckNetworkConnection, hcaps]
  cases hb : pol.evalNetwork ⟨host, port⟩ g <;>
    simp [Policy.EvaluateNetwork, Policy.CheckNetwork, hb]

/-- Witness for C1: the denial trace at a concrete denying policy and
registered empty grant set. -/
theorem checkNetworkConnection_matches_evaluate_witness :
    (CapabilityChecker.CheckNetworkConnection ⟨fun _ _ => false⟩
        (fun _ => some (some {})) "p" "h" 1).2 =
      [PolicyEvent.evaluateCall ⟨"h", 1⟩, PolicyEvent.checkCall ⟨"h", 1⟩,
        PolicyEvent.denialReport ⟨"h", 1⟩] :=
  (checkNetworkConnection_matches_evaluate ⟨fun _ _ => false⟩
    (fun _ => some (some {})) "p" "h" 1 {} rfl).2.2.1 rfl

/-- C5 counterexample: with no grant set registered for plugin p,
CheckNetwork returns the error no capabilities granted to plugin p, whose
text does not carry the capability-denied marker, so the lookup-failure
error does not surface as the capability-denied error kind. -/
theorem checkNetwork_error_kind_counterexample :
    (CapabilityChecker.CheckNetwork ⟨fun _ _ => false⟩ (fun _ => none) "p"
        ⟨"example.com", 443⟩).1 = some "no capabilities granted to plugin p" ∧
    strContainsSub "no capabilities granted to plugin p" "capability denied" = false := by
  constructor
  · rfl
  · decide

/-- C5 amended: the lookup-failure case and the denial case both surface as
errors — the same untyped Go error kind — but with distinct messages: the
denial error is network capability denied host:port and carries the
capability-denied marker, while the lookup-failure error is no capabilities
granted to plugin name, which does not. -/
theorem checkNetwork_error_kinds_amended :
    (∀ (pol : Policy) (caps : CapsTable) (plugin : String) (req : NetworkRequest),
      caps plugin = none →
        (CapabilityChecker.CheckNetwork pol caps plugin req).1 =
          some ("no capabilities granted to plugin " ++ plugin)) ∧
    (∀ (pol : Policy) (caps : CapsTable) (plugin : String) (req : NetworkRequest)
      (g : GrantSet), caps plugin = some (some g) →
      pol.evalNetwork req g = false →
        (CapabilityChecker.CheckNetwork pol caps plugin req).1 =
          some ("network capability denied: " ++ req.Host ++ ":" ++ toString req.Port)) ∧
    strContainsSub "network capability denied: example.com:443" "capability denied" = true ∧
    strContainsSub "no capabilities granted to plugin p" "capability denied" = false := by
  refine ⟨?_, ?_, by decide, by decide⟩
  · intro pol caps plugin req h
    simp only [CapabilityChecker.CheckNetwork, h]
  · intro pol caps plugin req g h hb
    simp only [CapabilityChecker.CheckNetwork, h, Policy.CheckNetwork, hb]
    simp

/-- Witness for the amended C5: concrete evaluation of both error branches. -/
theorem checkNetwork_error_kinds_amended_witness :
    (CapabilityChecker.CheckNetwork ⟨fun _ _ => false⟩ (fun _ => none) "q"
        ⟨"example.com", 443⟩).1 = some ("no capabilities granted to plugin " ++ "q") ∧
    (CapabilityChecker.CheckNetwork ⟨fun _ _ => false⟩ (fun _ => some (some {})) "q"
        ⟨"example.com", 443⟩).1 =
      some ("network capability denied: " ++ "example.com" ++ ":" ++ toString (443 : Int)) :=
  ⟨checkNetwork_error_kinds_amended.1 ⟨fun _ _ => false⟩ (fun _ => none) "q"
      ⟨"example.com", 443⟩ rfl,
   checkNetwork_error_kinds_amended.2.1 ⟨fun _ _ => false⟩ (fun _ => some (some {})) "q"
      ⟨"example.com", 443⟩ {} rfl rfl⟩

/-! ## Capability validator (application/validation) -/

/-- A validation error scoped to one capability kind's field. -/
structure ValidationError where
  Field : String
  Message : String
deriving DecidableEq

/-- The validation result accumulated across all capability sections. -/
structure ValidationResult where
  Valid : Bool
  Errors : List ValidationError := []
deriving DecidableEq

/-- Outcome of the external jsonschema library steps for one section
(resource registration, compilation, marshalling of the instance, instance
validation); the library itself is outside the repository. -/
inductive SchemaOutcome where
  | ok
  | addResourceFailed (emsg : String)
  | compileFailed (emsg : String)
  | marshalFailed (emsg : String)
  | instanceInvalid (emsg : String)

/-- A plugin manifest, reduced to the fields Validate reads. -/
structure Manifest where
  Name : String := ""
  Version : String := ""
  Capabilities : GrantSet := {}

/-- The validateSection helper of Validate: a kind missing from the schema
registry is itself a validation error; the later library steps each turn
their failure into a ValidationError scoped to the kind. -/
def validateSection (registry : String → Option String)
    (ext : String → String → SchemaOutcome) (result : ValidationResult)
    (kind : String) : ValidationResult :=
  match registry kind with
  | none =>
    { Valid := false,
      Errors := result.Errors ++
        [⟨kind, "no schema registered for capability kind: " ++ kind⟩] }
  | some schemaStr =>
    match ext kind schemaStr with
    | .ok => result
    | .addResourceFailed m =>
      { Valid := false,
        Errors := result.Errors ++
          [⟨kind, "failed to add schema resource for " ++ kind ++ ": " ++ m⟩] }
    | .compileFailed m =>
      { Valid := false,
        Errors := result.Errors ++ [⟨kind, "invalid schema for " ++ kind ++ ": " ++ m⟩] }
    | .marshalFailed m =>
      { Valid := false,
        Errors := result.Errors ++ [⟨kind, "failed to prepare validation object: " ++ m⟩] }
    | .instanceInvalid m =>
      { Valid := false, Errors := result.Errors ++ [⟨kind, m⟩] }

/-- The network check of Validate. -/
def validateNetworkSection (registry : String → Option String)
    (ext : String → String → SchemaOutcome) (g : GrantSet)
    (r : ValidationResult) : ValidationResult :=
  match g.Network with
  | some nc => if nc.Rules.length > 0 then validateSection registry ext r "network" else r
  | none => r

/-- The filesystem check of Validate. -/
def validateFSSection (registry : String → Option String)
    (ext : String → String → SchemaOutcome) (g : GrantSet)
    (r : ValidationResult) : ValidationResult :=
  match g.FS with
  | some fc => if fc.Rules.length > 0 then validateSection registry ext r "fs" else r
  | none => r

/-- The environment check of Validate. -/
def validateEnvSection (registry : String → Option String)
    (ext : String → String → SchemaOutcome) (g : GrantSet)
    (r : ValidationResult) : ValidationResult :=
  match g.Env with
  | some env => if env.Variables.length > 0 then validateSection registry ext r "env" else r
  | none => r

/-- The exec check of Validate. -/
def validateExecSection (registry : String → Option String)
    (ext : String → String → SchemaOutcome) (g : GrantSet)
    (r : ValidationResult) : ValidationResult :=
  match g.Exec with
  | some ec => if ec.Commands.length > 0 then validateSection registry ext r "exec" else r
  | none => r

/-- The key-value check of Validate. -/
def validateKVSection (registry : String → Option String)
    (ext : String → String → SchemaOutcome) (g : GrantSet)
    (r : ValidationResult) : ValidationResult :=
  match g.KV with
  | some kv => if kv.Rules.length > 0 then validateSection registry ext r "kv" else r
  | none => r

/-- Validate of the CapabilityValidator: starts from a valid result, checks
the five capability sections in order, and always returns a nil Go error in
the second component. -/
def Validate (registry : String → Option String)
    (ext : String → String → SchemaOutcome) (manifest : Manifest) :
    ValidationResult × Option String :=
  let grants := manifest.Capabilities
  let result : ValidationResult := { Valid := true, Errors := [] }
  let result := validateNetworkSection registry ext grants result
  let result := validateFSSection registry ext grants result
  let result := validateEnvSection registry ext grants result
  let result := validateExecSection registry ext grants result
  let result := validateKVSection registry ext grants result
  (result, none)

/-- The Go presence test selecting whether a capability section of the given
kind is validated. -/
def kindPresent (g : GrantSet) (kind : String) : Bool :=
  if kind = "network" then
    match g.Network with
    | some nc => decide (nc.Rules.length > 0)
    | none => false
  else if kind = "fs" then
    match g.FS with
    | some fc => decide (fc.Rules.length > 0)
    | none => false
  else if kind = "env" then
    match g.Env with
    | some env => decide (env.Variables.length > 0)
    | none => false
  else if kind = "exec" then
    match g.Exec with
    | some ec => decide (ec.Commands.length > 0)
    | none => false
  else if kind = "kv" then
    match g.KV with
    | some kv => decide (kv.Rules.length > 0)
    | none => false
  else false

/-- A result transformer that keeps every accumulated error and never turns
an invalid result back into a valid one. -/
def PreservesFailure (f : ValidationResult → ValidationResult) : Prop :=
  ∀ r : ValidationResult,
    (∀ e ∈ r.Errors, e ∈ (f r).Errors) ∧ ((f r).Valid = true → r.Valid = true)

theorem validateSection_preserves (registry : String → Option String)
    (ext : String → String → SchemaOutcome) (kind : String) :
    PreservesFailure (fun r => validateSection registry ext r kind) := by
  intro r
  unfold validateSection
  cases registry kind with
  | none =>
    constructor
    · intro e he
      simp [he]
    · intro hcontra
      simp at hcontra
  | some s =>
    constructor
    · intro e he
      cases hx : ext kind s <;> simp [hx, he]
    · intro hv
      cases hx : ext kind s <;> simp [hx] at hv
      exact hv

theorem preservesFailure_comp (f g : ValidationResult → ValidationResult)
    (hf : PreservesFailure f) (hg : PreservesFailure g) :
    PreservesFailure (fun r => g (f r)) := by
  intro r
  constructor
  · intro e he
    exact (hg (f r)).1 e ((hf r).1 e he)
  · intro h
    exact (hf r).2 ((hg (f r)).2 h)

theorem preservesFailure_id : PreservesFailure (fun r => r) := by
  intro r
  exact ⟨fun e he => he, fun h => h⟩

theorem validateNetworkSection_preserves (registry : String → Option String)
    (ext : String → String → SchemaOutcome) (g : GrantSet) :
    PreservesFailure (validateNetworkSection registry ext g) := by
  intro r
  cases hN : g.Network with
  | none => simp only [validateNetworkSection, hN]; exact preservesFailure_id r
  | some nc =>
    simp only [validateNetworkSection, hN]
    by_cases hl : nc.Rules.length > 0
    · rw [if_pos hl]; exact validateSection_preserves registry ext "network" r
    · rw [if_neg hl]; exact preservesFailure_id r

theorem validateFSSection_preserves (registry : String → Option String)
    (ext : String → String → SchemaOutcome) (g : GrantSet) :
    PreservesFailure (validateFSSection registry ext g) := by
  intro r
  cases hN : g.FS with
  | none => simp only [validateFSSection, hN]; exact preservesFailure_id r
  | some fc =>
    simp only [validateFSSection, hN]
    by_cases hl : fc.Rules.length > 0
    · rw [if_pos hl]; exact validateSection_preserves registry ext "fs" r
    · rw [if_neg hl]; exact preservesFailure_id r

theorem validateEnvSection_preserves (registry : String → Option String)
    (ext : String → String → SchemaOutcome) (g : GrantSet) :
    PreservesFailure (validateEnvSection registry ext g) := by
  intro r
  cases hN : g.Env with
  | none => simp only [validateEnvSection, hN]; exact preservesFailure_id r
  | some env =>
    simp only [validateEnvSection, hN]
    by_cases hl : env.Variables.length > 0
    · rw [if_pos hl]; exact validateSection_preserves registry ext "env" r
    · rw [if_neg hl]; exact preservesFailure_id r

theorem validateExecSection_preserves (registry : String → Option String)
    (ext : String → String → SchemaOutcome) (g : GrantSet) :
    PreservesFailure (validateExecSection registry ext g) := by
  intro r
  cases hN : g.Exec with
  | none => simp only [validateExecSection, hN]; exact preservesFailure_id r
  | some ec =>
    simp only [validateExecSection, hN]
    by_cases hl : ec.Commands.length > 0
    · rw [if_pos hl]; exact validateSection_preserves registry ext "exec" r
    · rw [if_neg hl]; exact preservesFailure_id r

theorem validateKVSection_preserves (registry : String → Option String)
    (ext : String → String → SchemaOutcome) (g : GrantSet) :
    PreservesFailure (validateKVSection registry ext g) := by
  intro r
  cases hN : g.KV with
  | none => simp only [validateKVSection, hN]; exact preservesFailure_id r
  | some kv =>
    simp only [validateKVSection, hN]
    by_cases hl : kv.Rules.length > 0
    · rw [if_pos hl]; exact validateSection_preserves registry ext "kv" r
    · rw [if_neg hl]; exact preservesFailure_id r

theorem validateSection_missing (registry : String → Option String)
    (ext : String → String → SchemaOutcome) (r : ValidationResult) (kind : String)
    (h : registry kind = none) :
    validateSection registry ext r kind =
      { Valid := false,
        Errors := r.Errors ++
          [⟨kind, "no schema registered for capability kind: " ++ kind⟩] } := by
  unfold validateSection
  rw [h]

theorem final_invalid_mem (registry : String → Option String)
    (ext : String → String → SchemaOutcome) (kind : String)
    (hreg : registry kind = none) (suf : ValidationResult → ValidationResult)
    (hsuf : PreservesFailure suf) (rPre : ValidationResult) :
    (suf (validateSection registry ext rPre kind)).Valid = false ∧
    (⟨kind, "no schema registered for capability kind: " ++ kind⟩ : ValidationError) ∈
      (suf (validateSection registry ext rPre kind)).Errors := by
  have hs := validateSection_missing registry ext rPre kind hreg
  constructor
  · cases hb : (suf (validateSection registry ext rPre kind)).Valid with
    | false => rfl
    | true =>
      have hv := (hsuf _).2 hb
      rw [hs] at hv
      simp at hv
  · apply (hsuf _).1
    rw [hs]
    simp

/-- C8: for every manifest with a non-empty capability section whose kind
has no schema in the registry, Validate returns no transport-level error,
the result is invalid, and it contains a ValidationError whose field is the
kind and whose message is the no-schema-registered message for that kind. -/
theorem validate_missing_schema :
    ∀ (registry : String → Option String) (ext : String → String → SchemaOutcome)
      (manifest : Manifest) (kind : String),
      kindPresent manifest.Capabilities kind = true → registry kind = none →
      (Validate registry ext manifest).2 = none ∧
      (Validate registry ext manifest).1.Valid = false ∧
      (⟨kind, "no schema registered for capability kind: " ++ kind⟩ : ValidationError) ∈
        (Validate registry ext manifest).1.Errors := by
  intro registry ext m kind hk hreg
  refine ⟨rfl, ?_⟩
  have pNet := validateNetworkSection_preserves registry ext m.Capabilities
  have pFS := validateFSSection_preserves registry ext m.Capabilities
  have pEnv := validateEnvSection_preserves registry ext m.Capabilities
  have pExec := validateExecSection_preserves registry ext m.Capabilities
  have pKV := validateKVSection_preserves registry ext m.Capabilities
  simp only [Validate]
  unfold kindPresent at hk
  split_ifs at hk with h1 h2 h3 h4 h5
  · subst h1
    cases hN : m.Capabilities.Network with
    | none => rw [hN] at hk; exact absurd hk (by simp)
    | some nc =>
      rw [hN] at hk
      have hlen := of_decide_eq_true hk
      have hstage : validateNetworkSection registry ext m.Capabilities
          { Valid := true, Errors := [] } =
          validateSection registry ext { Valid := true, Errors := [] } "network" := by
        simp only [validateNetworkSection, hN]
        rw [if_pos hlen]
      rw [hstage]
      exact final_invalid_mem registry ext "network" hreg
        (fun r => validateKVSection registry ext m.Capabilities
          (validateExecSection registry ext m.Capabilities
            (validateEnvSection registry ext m.Capabilities
              (validateFSSection registry ext m.Capabilities r))))
        (preservesFailure_comp _ (validateKVSection registry ext m.Capabilities)
          (preservesFailure_comp _ (validateExecSection registry ext m.Capabilities)
            (preservesFailure_comp _ (validateEnvSection registry ext m.Capabilities)
              pFS pEnv) pExec) pKV)
        { Valid := true, Errors := [] }
  · subst h2
    cases hN : m.Capabilities.FS with
    | none => rw [hN] at hk; exact absurd hk (by simp)
    | some fc =>
      rw [hN] at hk
      have hlen := of_decide_eq_true hk
      have hstage : ∀ r, validateFSSection registry ext m.Capabilities r =
          validateSection registry ext r "fs" := by
        intro r
        simp only [validateFSSection, hN]
        rw [if_pos hlen]
      rw [hstage]
      exact final_invalid_mem registry ext "fs" hreg
        (fun r => validateKVSection registry ext m.Capabilities
          (validateExecSection registry ext m.Capabilities
            (validateEnvSection registry ext m.Capabilities r)))
        (preservesFailure_comp _ (validateKVSection registry ext m.Capabilities)
          (preservesFailure_comp _ (validateExecSection registry ext m.Capabilities)
            pEnv pExec) pKV)
        (validateNetworkSection registry ext m.Capabilities { Valid := true, Errors := [] })
  · subst h3
    cases hN : m.Capabilities.Env with
    | none => rw [hN] at hk; exact absurd hk (by simp)
    | some env =>
      rw [hN] at hk
      have hlen := of_decide_eq_true hk
      have hstage : ∀ r, validateEnvSection registry ext m.Capabilities r =
          validateSection registry ext r "env" := by
        intro r
        simp only [validateEnvSection, hN]
        rw [if_pos hlen]
      rw [hstage]
      exact final_invalid_mem registry ext "env" hreg
        (fun r => validateKVSection registry ext m.Capabilities
          (validateExecSection registry ext m.Capabilities r))
        (preservesFailure_comp _ (validateKVSection registry ext m.Capabilities)
          pExec pKV)
        (validateFSSection registry ext m.Capabilities
          (validateNetworkSection registry ext m.Capabilities { Valid := true, Errors := [] }))
  · subst h4
    cases hN : m.Capabilities.Exec with
    | none => rw [hN] at hk; exact absurd hk (by simp)
    | some ec =>
      rw [hN] at hk
      have hlen := of_decide_eq_true hk
      have hstage : ∀ r, validateExecSection registry ext m.Capabilities r =
          validateSection registry ext r "exec" := by
        intro r
        simp only [validateExecSection, hN]
        rw [if_pos hlen]
      rw [hstage]
      exact final_invalid_mem registry ext "exec" hreg
        (validateKVSection registry ext m.Capabilities) pKV
        (validateEnvSection registry ext m.Capabilities
          (validateFSSection registry ext m.Capabilities
            (validateNetworkSection registry ext m.Capabilities
              { Valid := true, Errors := [] })))
  · subst h5
    cases hN : m.Capabilities.KV with
    | none => rw [hN] at hk; exact absurd hk (by simp)
    | some kv =>
      rw [hN] at hk
      have hlen := of_decide_eq_true hk
      have hstage : ∀ r, validateKVSection registry ext m.Capabilities r =
          validateSection registry ext r "kv" := by
        intro r
        simp only [validateKVSection, hN]
        rw [if_pos hlen]
      rw [hstage]
      exact final_invalid_mem registry ext "kv" hreg (fun r => r) preservesFailure_id
        (validateExecSection registry ext m.Capabilities
          (validateEnvSection registry ext m.Capabilities
            (validateFSSection registry ext m.Capabilities
              (validateNetworkSection registry ext m.Capabilities
                { Valid := true, Errors := [] }))))

/-- Witness for C8: a manifest whose network section is present while the
registry is empty produces the invalid result with the no-schema error. -/
theorem validate_missing_schema_witness :
    (Validate (fun _ => none) (fun _ _ => SchemaOutcome.ok)
        { Capabilities := { Network := some ⟨[⟨["example.com"], ["443"]⟩]⟩ } }).2 = none ∧
    (Validate (fun _ => none) (fun _ _ => SchemaOutcome.ok)
        { Capabilities := { Network := some ⟨[⟨["example.com"], ["443"]⟩]⟩ } }).1.Valid = false ∧
    (⟨"network", "no schema registered for capability kind: " ++ "network"⟩ : ValidationError) ∈
      (Validate (fun _ => none) (fun _ _ => SchemaOutcome.ok)
        { Capabilities := { Network := some ⟨[⟨["example.com"], ["443"]⟩]⟩ } }).1.Errors :=
  validate_missing_schema (fun _ => none) (fun _ _ => SchemaOutcome.ok)
    { Capabilities := { Network := some ⟨[⟨["example.com"], ["443"]⟩]⟩ } } "network"
    (by decide) rfl

/-! ## DNS-pin cache (hostfuncs/http.go) -/

/-- A validated and pinned DNS resolution. -/
structure DnsPinnedEntry where
  resolvedIP : String
  timestamp : Nat
deriving DecidableEq

/-- The cache of validated DNS resolutions; timestamps and the ttl are in
nanoseconds, mirroring Go time.Duration. -/
structure DnsPinCache where
  entries : List (String × DnsPinnedEntry)
  ttl : Nat
deriving DecidableEq

/-- newDNSPinCache: an empty cache with a ttl of 5 minutes. -/
def newDNSPinCache : DnsPinCache :=
  { entries := [], ttl := 5 * 60 * 1000000000 }

/-- The outcome of ValidateAddress for one hostname (the netfilter itself is
abstracted as a function parameter below). -/
structure NetValidationResult where
  Allowed : Bool
  Reason : String
  ResolvedIP : String

/-- Go map read on the cache entries. -/
def lookupEntry : List (String × DnsPinnedEntry) → String → Option DnsPinnedEntry
  | [], _ => none
  | (k, v) :: t, h => if k = h then some v else lookupEntry t h

/-- Go map assignment on the cache entries (overwrite). -/
def insertEntry (l : List (String × DnsPinnedEntry)) (k : String)
    (v : DnsPinnedEntry) : List (String × DnsPinnedEntry) :=
  (k, v) :: l.filter (fun e => e.1 != k)

/-- The resolve-and-validate path of dnsPinCache.get: ValidateAddress is
consulted; a disallowed result is an SSRF-protection error, otherwise the
validated resolution (the hostname itself when the filter returned no IP) is
cached with the current time and returned.  The Bool records that
resolution/validation was invoked. -/
def dnsResolveAndPin (validate : String → Bool → NetValidationResult)
    (c : DnsPinCache) (hostname : String) (allowPrivate : Bool) (now : Nat) :
    DnsPinCache × Except String String × Bool :=
  let result := validate hostname allowPrivate
  if !result.Allowed then
    (c, Except.error ("SSRF protection: " ++ result.Reason), true)
  else
    let resolvedIP := if result.ResolvedIP = "" then hostname else result.ResolvedIP
    ({ c with entries := insertEntry c.entries hostname ⟨resolvedIP, now⟩ },
      Except.ok resolvedIP, true)

/-- dnsPinCache.get: a cached entry younger than the ttl is returned without
re-resolving; otherwise the hostname is resolved, validated and re-pinned. -/
def DnsPinCache.get (validate : String → Bool → NetValidationResult)
    (c : DnsPinCache) (hostname : String) (allowPrivate : Bool) (now : Nat) :
    DnsPinCache × Except String String × Bool :=
  match lookupEntry c.entries hostname with
  | some entry =>
    if now - entry.timestamp < c.ttl then (c, Except.ok entry.resolvedIP, false)
    else dnsResolveAndPin validate c hostname allowPrivate now
  | none => dnsResolveAndPin validate c hostname allowPrivate now

theorem lookupEntry_insert (l : List (String × DnsPinnedEntry)) (k : String)
    (v : DnsPinnedEntry) : lookupEntry (insertEntry l k v) k = some v := by
  simp [insertEntry, lookupEntry]

theorem dnsResolveAndPin_invoked (validate : String → Bool → NetValidationResult)
    (c : DnsPinCache) (hostname : String) (allowPrivate : Bool) (now : Nat) :
    (dnsResolveAndPin validate c hostname allowPrivate now).2.2 = true := by
  unfold dnsResolveAndPin
  cases hA : (validate hostname allowPrivate).Allowed <;> simp [hA]

theorem dnsResolveAndPin_ok_inv (validate : String → Bool → NetValidationResult)
    (c c1 : DnsPinCache) (hostname : String) (allowPrivate : Bool) (now : Nat)
    (ip : String) :
    dnsResolveAndPin validate c hostname allowPrivate now = (c1, Except.ok ip, true) →
      c1 = { c with entries := insertEntry c.entries hostname ⟨ip, now⟩ } := by
  unfold dnsResolveAndPin
  cases hA : (validate hostname allowPrivate).Allowed with
  | false =>
    intro h
    simp [hA] at h
  | true =>
    intro h
    simp only [hA, Bool.not_true, Bool.false_eq_true, if_false, Prod.mk.injEq,
      Except.ok.injEq] at h
    obtain ⟨hc, hip, -⟩ := h
    rw [← hc, hip]

/-- C9: once a get call has resolved, validated and pinned an IP for a
hostname, every later get for that hostname within the cache ttl (5 minutes
in newDNSPinCache) returns the pinned IP without invoking resolution or
validation and leaves the cache unchanged, while a get at or past the ttl
invokes resolution and validation again. -/
theorem dnsPinCache_get_ttl :
    ∀ (validate : String → Bool → NetValidationResult) (c c1 : DnsPinCache)
      (h : String) (ap : Bool) (t0 : Nat) (ip : String),
      DnsPinCache.get validate c h ap t0 = (c1, Except.ok ip, true) →
      (∀ t1, t1 - t0 < c1.ttl →
        DnsPinCache.get validate c1 h ap t1 = (c1, Except.ok ip, false)) ∧
      (∀ t1, c1.ttl ≤ t1 - t0 →
        (DnsPinCache.get validate c1 h ap t1).2.2 = true) ∧
      c1.ttl = c.ttl ∧
      newDNSPinCache.ttl = 5 * 60 * 1000000000 := by
  intro validate c c1 h ap t0 ip hfirst
  have hres : dnsResolveAndPin validate c h ap t0 = (c1, Except.ok ip, true) := by
    unfold DnsPinCache.get at hfirst
    cases hl : lookupEntry c.entries h with
    | none =>
      simp only [hl] at hfirst
      exact hfirst
    | some entry =>
      simp only [hl] at hfirst
      by_cases hts : t0 - entry.timestamp < c.ttl
      · rw [if_pos hts] at hfirst
        simp at hfirst
      · rw [if_neg hts] at hfirst
        exact hfirst
  have hc1 := dnsResolveAndPin_ok_inv validate c c1 h ap t0 ip hres
  have hent : lookupEntry c1.entries h = some ⟨ip, t0⟩ := by
    rw [hc1]
    exact lookupEntry_insert c.entries h ⟨ip, t0⟩
  have httl : c1.ttl = c.ttl := by
    rw [hc1]
  refine ⟨?_, ?_, httl, rfl⟩
  · intro t1 ht
    unfold DnsPinCache.get
    simp only [hent]
    rw [if_pos ht]
  · intro t1 ht
    unfold DnsPinCache.get
    simp only [hent]
    rw [if_neg (not_lt.mpr ht)]
    exact dnsResolveAndPin_invoked validate c1 h ap t1

/-- Witness for C9: a concrete first resolution of hostname h to 1.2.3.4 at
time 0 followed by a cached read at time 1. -/
theorem dnsPinCache_get_ttl_witness :
    DnsPinCache.get (fun _ _ => ⟨true, "", "1.2.3.4"⟩)
        { entries := [("h", ⟨"1.2.3.4", 0⟩)], ttl := 5 * 60 * 1000000000 } "h" false 1 =
      ({ entries := [("h", ⟨"1.2.3.4", 0⟩)], ttl := 5 * 60 * 1000000000 },
        Except.ok "1.2.3.4", false) :=
  (dnsPinCache_get_ttl (fun _ _ => ⟨true, "", "1.2.3.4"⟩) newDNSPinCache
      { entries := [("h", ⟨"1.2.3.4", 0⟩)], ttl := 5 * 60 * 1000000000 }
      "h" false 0 "1.2.3.4" (by rfl)).1 1 (by norm_num)

end RegletSDK
